import Mathlib

/-
  Verification of the video-call application (src/app.py) against its
  specification.  The development shallowly embeds the two stateful cores of
  the program: the face-match authentication decision procedure
  (load_faces / login / admin_delete) and the Socket.IO signaling relay
  (join / leave / offer / answer / ice-candidate handlers).

  External collaborators (base64 decoding, cv2.imdecode, the
  face_recognition library, cv2.imwrite, face_recognition.load_image_file)
  are modelled as an explicit environment of pure functions: fallible calls
  return Option, an uncaught Python exception is an Except.error.
-/

set_option autoImplicit false

namespace VideoCall

/-! ## String helpers kept kernel-computable

The Python code uses `str.lower().endswith(...)`, `os.path.splitext` and
`data.split(",", 1)[-1]`.  They are embedded below as structural recursions
over the character list of the string, so that concrete witnesses evaluate
inside the kernel. -/

/-- `strToLower s` is Python's `s.lower()` restricted to ASCII case mapping
(`Char.toLower`), which is all the code relies on for extension tests. -/
def strToLower (s : String) : String :=
  String.mk (s.toList.map Char.toLower)

/-- `strEndsWith s suffix` is Python's `s.endswith(suffix)`. -/
def strEndsWith (s suffix : String) : Bool :=
  suffix.toList.reverse.isPrefixOf s.toList.reverse

/-- The filename filter of `load_faces` (src/app.py line 24):
`filename.lower().endswith((".jpg", ".jpeg", ".png"))`. -/
def lowerEndsWithExt (filename : String) : Bool :=
  strEndsWith (strToLower filename) ".jpg" ||
    strEndsWith (strToLower filename) ".jpeg" ||
    strEndsWith (strToLower filename) ".png"

/-- `os.path.splitext(p)[0]` for a bare filename (no directory separator):
split at the last dot, unless every character before that dot is itself a
dot (so ".bashrc" keeps its leading dot and is not split). -/
def splitextRoot (p : String) : String :=
  let cs := p.toList
  if '.' ∈ cs then
    let dotIndex := cs.length - 1 - cs.reverse.indexOf '.'
    if (cs.take dotIndex).any (fun c => c ≠ '.') then String.mk (cs.take dotIndex)
    else p
  else p

/-- Helper for `data.split(",", 1)[-1]`: everything after the first comma,
if there is one. -/
def afterFirstCommaList : List Char → Option (List Char)
  | [] => none
  | c :: rest => if c = ',' then some rest else afterFirstCommaList rest

/-- Python's `data.split(",", 1)[-1]` (src/app.py line 52): the part after
the first comma, or the whole string when it has no comma. -/
def afterFirstComma (s : String) : String :=
  match afterFirstCommaList s.toList with
  | some suffix => String.mk suffix
  | none => s

/-! ## Face authentication model (src/app.py lines 21-85 and 121-135) -/

/-- A JSON value as Python sees `request.json.get("image")`: `pynone` covers
both a missing key and JSON null.  (JSON arrays/objects behave like the
other non-string truthy values for the code paths modelled here.) -/
inductive PyVal where
  | pynone
  | pystr (s : String)
  | pynum (n : Int)
  | pybool (b : Bool)
deriving DecidableEq, Repr

/-- Python truthiness, used by `if not data:` (src/app.py line 48). -/
def PyVal.falsy : PyVal → Bool
  | .pynone => true
  | .pystr s => decide (s = "")
  | .pynum n => decide (n = 0)
  | .pybool b => !b

/-- The external collaborators of the face-authentication core, as pure
functions.  `Img` is the type of in-memory images (numpy arrays), `Enc` the
type of face embeddings, `FD` the type of on-disk file contents.
`close a b` embeds the per-record test of
`face_recognition.compare_faces(known, unknown, tolerance=0.5)`:
distance between `a` and `b` is within the 0.5 tolerance.
A `none` result of `b64decode`, `imdecode`, `load_image_file` models the
raised exception / returned `None` of the corresponding Python call. -/
structure FaceEnv (Img Enc FD : Type) where
  b64decode : String → Option (List Nat)
  imdecode : List Nat → Option Img
  face_encodings : Img → List Enc
  load_image_file : FD → Option Img
  imwrite_jpg : Img → FD
  close : Enc → Enc → Bool

/-- The process-wide mutable state touched by the handlers: the faces
directory (filename, file contents), the two parallel lists
`KNOWN_FACES` / `KNOWN_NAMES`, and the session's `user` entry. -/
structure FaceState (Enc FD : Type) where
  fs : List (String × FD)
  known_faces : List Enc
  known_names : List String
  session_user : Option String
deriving DecidableEq, Repr

/-- Result of `load_faces`: the rebuilt parallel lists plus the log of
`print("Failed to load face", path, e)` messages. -/
structure LoadResult (Enc : Type) where
  known_faces : List Enc
  known_names : List String
  log : List String
deriving DecidableEq, Repr

/-- The JSON body returned by the /login handler. -/
structure LoginResp where
  status : String
  name : Option String
deriving DecidableEq, Repr

/-- `face_recognition.compare_faces(known_faces, unknown, tolerance=0.5)`:
one boolean per stored encoding, true when within tolerance. -/
def compare_faces {Enc : Type} (close : Enc → Enc → Bool)
    (known_faces : List Enc) (unknown : Enc) : List Bool :=
  known_faces.map (fun k => close k unknown)

/-- `load_faces()` (src/app.py lines 21-35): walk the faces directory in
listing order; for each file with an image extension, try to load it and
compute its encodings.  A load failure is printed and skipped; a file with
zero detected faces is skipped (silently); otherwise the first encoding and
the extension-stripped filename are appended. -/
def load_faces {Img Enc FD : Type} (env : FaceEnv Img Enc FD) :
    List (String × FD) → LoadResult Enc
  | [] => ⟨[], [], []⟩
  | (filename, contents) :: rest =>
    if lowerEndsWithExt filename then
      match env.load_image_file contents with
      | none =>
        let r := load_faces env rest
        ⟨r.known_faces, r.known_names, ("Failed to load face faces/" ++ filename) :: r.log⟩
      | some image =>
        match env.face_encodings image with
        | [] => load_faces env rest
        | e :: _ =>
          let r := load_faces env rest
          ⟨e :: r.known_faces, splitextRoot filename :: r.known_names, r.log⟩
    else load_faces env rest

/-- Writing a file into the faces directory (`cv2.imwrite`): replaces an
existing file of the same name, otherwise the new file appears in the
directory listing (modelled at the end; listing order is
implementation-defined). -/
def fsWrite {FD : Type} (fs : List (String × FD)) (filename : String)
    (contents : FD) : List (String × FD) :=
  if fs.any (fun f => f.1 = filename) then
    fs.map (fun f => if f.1 = filename then (filename, contents) else f)
  else fs ++ [(filename, contents)]

/-- The enrollment branch of /login (src/app.py lines 72-83): build the
timestamped filename, try to write the frame to disk (`writeOk = false`
models a raised exception in `cv2.imwrite`, caught and reported as
status "fail" before any reload), then rebuild the store and answer
`new_face` with the full filename. -/
def enroll_new {Img Enc FD : Type} (env : FaceEnv Img Enc FD) (ts : String)
    (writeOk : Bool) (frame : Img) (st : FaceState Enc FD) :
    Except String (LoginResp × FaceState Enc FD) :=
  let filename := "user_" ++ ts ++ ".jpg"
  if writeOk then
    let fs' := fsWrite st.fs filename (env.imwrite_jpg frame)
    let r := load_faces env fs'
    .ok (⟨"new_face", some filename⟩,
      { st with fs := fs', known_faces := r.known_faces, known_names := r.known_names })
  else
    .ok (⟨"fail", none⟩, st)

/-- The string branch of /login (src/app.py lines 52-85), after the
falsiness check: strip the data-URL prefix, base64-decode, `cv2.imdecode`,
compute encodings, compare against the store using
`matches.index(True)` for the first within-tolerance record, else enroll. -/
def login_image {Img Enc FD : Type} (env : FaceEnv Img Enc FD) (ts : String)
    (writeOk : Bool) (d : String) (st : FaceState Enc FD) :
    Except String (LoginResp × FaceState Enc FD) :=
  match env.b64decode (afterFirstComma d) with
  | none => .ok (⟨"fail", none⟩, st)
  | some img_bytes =>
    match env.imdecode img_bytes with
    | none => .ok (⟨"fail", none⟩, st)
    | some frame =>
      match env.face_encodings frame with
      | [] => .ok (⟨"fail", none⟩, st)
      | unknown :: _ =>
        let matchList :=
          if st.known_faces.isEmpty then []
          else compare_faces env.close st.known_faces unknown
        if true ∈ matchList then
          let name := st.known_names.getD (matchList.indexOf true) ""
          .ok (⟨"success", some name⟩, { st with session_user := some name })
        else enroll_new env ts writeOk frame st

/-- The /login handler (src/app.py lines 44-85).  `ts` is the
`datetime.now().strftime("%Y%m%d_%H%M%S")` timestamp, `writeOk` whether the
disk write of an enrollment would succeed.  A falsy `image` value answers
"fail"; calling `.split` on a truthy non-string raises `AttributeError`,
modelled as `Except.error`. -/
def login {Img Enc FD : Type} (env : FaceEnv Img Enc FD) (ts : String)
    (writeOk : Bool) (data : PyVal) (st : FaceState Enc FD) :
    Except String (LoginResp × FaceState Enc FD) :=
  if data.falsy then .ok (⟨"fail", none⟩, st)
  else
    match data with
    | .pystr d => login_image env ts writeOk d st
    | _ => .error "AttributeError"

/-- The /admin/delete/username handler (src/app.py lines 121-135):
requires the admin session (`none` models the "Access denied" page),
removes `faces/{username}.jpg` when that file exists, then rebuilds the
store unconditionally. -/
def admin_delete {Img Enc FD : Type} (env : FaceEnv Img Enc FD)
    (username : String) (st : FaceState Enc FD) :
    Option (FaceState Enc FD) :=
  if st.session_user = some "admin" then
    let filepath := username ++ ".jpg"
    let fs' :=
      if st.fs.any (fun f => f.1 = filepath) then st.fs.filter (fun f => f.1 ≠ filepath)
      else st.fs
    let r := load_faces env fs'
    some { st with fs := fs', known_faces := r.known_faces, known_names := r.known_names }
  else none

/-- Status of a /login response, `none` when the handler raised. -/
def respStatus {Enc FD : Type} :
    Except String (LoginResp × FaceState Enc FD) → Option String
  | .ok (r, _) => some r.status
  | .error _ => none

/-- Name field of a /login response, `none` when absent or raised. -/
def respName {Enc FD : Type} :
    Except String (LoginResp × FaceState Enc FD) → Option String
  | .ok (r, _) => r.name
  | .error _ => none

/-- The state after a /login call (the given default when it raised). -/
def stateAfter {Enc FD : Type} (dflt : FaceState Enc FD) :
    Except String (LoginResp × FaceState Enc FD) → FaceState Enc FD
  | .ok (_, s) => s
  | .error _ => dflt

/-! ## Signaling relay model (src/app.py lines 153-177)

Rooms are the Socket.IO server's room membership: a map from room name to
the member connections (socket ids), in join order.  An absent room is an
empty member list (rooms are created implicitly on first join and vanish
when empty, as in the spec). -/

/-- A connection reference (Socket.IO session id). -/
abbrev SID := Nat

/-- Room membership state: room name to members in join order. -/
abbrev Rooms := String → List SID

/-- An inbound event payload: the JSON-like map carried by a signaling
event, as a key-value list. -/
abbrev SigMap := List (String × String)

/-- One outbound emit: event name, payload, and the receiving sockets. -/
structure OutEvent (P : Type) where
  event : String
  payload : P
  recipients : List SID
deriving Repr

/-- `flask_socketio.join_room`: add the connection to the room's member
set (idempotent). -/
def join_room (rooms : Rooms) (sid : SID) (room : String) : Rooms :=
  fun r =>
    if r = room then
      if sid ∈ rooms room then rooms room else rooms room ++ [sid]
    else rooms r

/-- `flask_socketio.leave_room`: remove the connection from the room
(idempotent). -/
def leave_room (rooms : Rooms) (sid : SID) (room : String) : Rooms :=
  fun r => if r = room then (rooms room).filter (fun m => m ≠ sid) else rooms r

/-- Delivery set of `emit(event, data, to=room, include_self=...)`: the
members of `room`, minus the sender unless `includeSelf`.  `emit` with
`to=None` addresses the originating connection only. -/
def emitTargets (rooms : Rooms) (toRoom : Option String) (sender : SID)
    (includeSelf : Bool) : List SID :=
  match toRoom with
  | none => [sender]
  | some room =>
    if includeSelf then rooms room else (rooms room).filter (fun m => m ≠ sender)

/-- The "join" handler (src/app.py lines 153-158): `join_room(room)` then
emit "user-joined" carrying the name to the room without the sender. -/
def on_join (rooms : Rooms) (sender : SID) (data : SigMap) :
    Rooms × OutEvent (Option String) :=
  let room := data.lookup "room"
  let rooms' :=
    match room with
    | some r => join_room rooms sender r
    | none => rooms
  (rooms', ⟨"user-joined", data.lookup "name", emitTargets rooms' room sender false⟩)

/-- The "leave" handler (src/app.py lines 160-165): `leave_room(room)` then
emit "user-left" to the (now sender-less) room, self not excluded. -/
def on_leave (rooms : Rooms) (sender : SID) (data : SigMap) :
    Rooms × OutEvent (Option String) :=
  let room := data.lookup "room"
  let rooms' :=
    match room with
    | some r => leave_room rooms sender r
    | none => rooms
  (rooms', ⟨"user-left", data.lookup "name", emitTargets rooms' room sender true⟩)

/-- The "offer" handler (src/app.py lines 167-169): relay the payload
verbatim to the room named inside it, excluding the sender. -/
def on_offer (rooms : Rooms) (sender : SID) (data : SigMap) : OutEvent SigMap :=
  ⟨"offer", data, emitTargets rooms (data.lookup "room") sender false⟩

/-- The "answer" handler (src/app.py lines 171-173). -/
def on_answer (rooms : Rooms) (sender : SID) (data : SigMap) : OutEvent SigMap :=
  ⟨"answer", data, emitTargets rooms (data.lookup "room") sender false⟩

/-- The "ice-candidate" handler (src/app.py lines 175-177). -/
def on_ice_candidate (rooms : Rooms) (sender : SID) (data : SigMap) :
    OutEvent SigMap :=
  ⟨"ice-candidate", data, emitTargets rooms (data.lookup "room") sender false⟩

/-- Modelled from the spec: app.py registers no "disconnect" handler; the
removal of an abruptly disconnected client from all of its rooms is done by
the Flask-SocketIO library itself.  §4.3: "A connection that disconnects
without explicit leave must still be removed from every room it belongs
to". -/
def on_disconnect (rooms : Rooms) (sid : SID) : Rooms :=
  fun r => (rooms r).filter (fun m => m ≠ sid)

/-! ## Concrete instantiation used by the witnesses

Images, encodings and file contents are all integers; an image's single
encoding is the image value itself; two encodings are within the 0.5
tolerance when they differ by at most 30.  The value 46 is an image in
which no face is detected, the file contents -1 a file whose load raises. -/

/-- A concrete environment for evaluating the handlers on closed inputs. -/
def cenv : FaceEnv Int Int Int where
  b64decode s := if s = "badb64" then none else some (s.toList.map Char.toNat)
  imdecode bs := if bs = [] then none else some ((bs.sum : Nat) : Int)
  face_encodings i := if i = 46 then [] else [i]
  load_image_file d := if d = -1 then none else some d
  imwrite_jpg i := i
  close a b := decide ((a - b).natAbs ≤ 30)

/-- The empty initial state: no files, no known faces, no session. -/
def cst0 : FaceState Int Int := ⟨[], [], [], none⟩

/-- A concrete membership state: room "lobby" with members 1, 2, 3. -/
def crooms : Rooms := fun r => if r = "lobby" then [1, 2, 3] else []

/-! ## Helper lemmas -/

/-- `matches.index(True)` returns the first index holding `true`: it is in
range, `true` sits there, and everything before it is `false`. -/
theorem indexOf_true_spec (ms : List Bool) (h : true ∈ ms) :
    ms.indexOf true < ms.length ∧ ms[ms.indexOf true]? = some true ∧
      ∀ k, k < ms.indexOf true → ms[k]? = some false := by
  induction ms with
  | nil => cases h
  | cons b rest ih =>
    cases b with
    | true => refine ⟨?_, ?_, ?_⟩ <;> simp [List.indexOf_cons]
    | false =>
      have hrest : true ∈ rest := by simpa using h
      obtain ⟨h1, h2, h3⟩ := ih hrest
      have hidx : (false :: rest).indexOf true = rest.indexOf true + 1 := by
        simp [List.indexOf_cons]
      refine ⟨?_, ?_, ?_⟩
      · simpa [hidx] using Nat.succ_lt_succ h1
      · simpa [hidx] using h2
      · intro k hk
        rw [hidx] at hk
        cases k with
        | zero => simp
        | succ k' => simpa using h3 k' (Nat.lt_of_succ_lt_succ hk)

/-- When every earlier comparison is `false`, `index(True)` points at the
element appended after them. -/
theorem indexOf_true_append (l l₂ : List Bool) (h : ∀ b ∈ l, b = false) :
    (l ++ true :: l₂).indexOf true = l.length := by
  induction l with
  | nil => simp [List.indexOf_cons]
  | cons b rest ih =>
    have hb : b = false := h b (by simp)
    subst hb
    simp only [List.cons_append, List.indexOf_cons, List.length_cons]
    rw [ih (fun x hx => h x (by simp [hx]))]
    rfl

/-- `load_faces` processes a directory listing piecewise: the result over a
concatenation is the concatenation of the results. -/
theorem load_faces_append {Img Enc FD : Type} (env : FaceEnv Img Enc FD)
    (l₁ l₂ : List (String × FD)) :
    load_faces env (l₁ ++ l₂) =
      ⟨(load_faces env l₁).known_faces ++ (load_faces env l₂).known_faces,
       (load_faces env l₁).known_names ++ (load_faces env l₂).known_names,
       (load_faces env l₁).log ++ (load_faces env l₂).log⟩ := by
  induction l₁ with
  | nil => simp [load_faces]
  | cons f rest ih =>
    obtain ⟨name, contents⟩ := f
    simp only [List.cons_append, load_faces]
    split
    · cases henv : env.load_image_file contents with
      | none => simp [henv, ih]
      | some img =>
        cases henc : env.face_encodings img with
        | nil => simp [henv, henc, ih]
        | cons e es => simp [henv, henc, ih]
    · simp [ih]

/-- `load_faces` appends to the two parallel lists in lockstep, so they
always have the same length. -/
theorem load_faces_length {Img Enc FD : Type} (env : FaceEnv Img Enc FD)
    (l : List (String × FD)) :
    (load_faces env l).known_names.length = (load_faces env l).known_faces.length := by
  induction l with
  | nil => simp [load_faces]
  | cons f rest ih =>
    obtain ⟨name, contents⟩ := f
    simp only [load_faces]
    split
    · cases henv : env.load_image_file contents with
      | none => simpa [henv] using ih
      | some img =>
        cases henc : env.face_encodings img with
        | nil => simpa [henv, henc] using ih
        | cons e es => simpa [henv, henc] using ih
    · exact ih

/-- Writing a file whose name is not yet in the directory appends it to the
listing. -/
theorem fsWrite_of_fresh {FD : Type} (fs : List (String × FD)) (filename : String)
    (c : FD) (h : ∀ f ∈ fs, f.1 ≠ filename) :
    fsWrite fs filename c = fs ++ [(filename, c)] := by
  have hany : fs.any (fun f => f.1 = filename) = false := by
    rw [List.any_eq_false]
    intro f hf
    simpa using h f hf
  simp [fsWrite, hany]

/-- Indexing just past a list retrieves the element appended to it. -/
theorem getD_concat_length {α : Type} (l : List α) (a d : α) :
    (l ++ [a]).getD l.length d = a := by
  rw [List.getD_eq_getElem?_getD, List.getElem?_concat_length]
  rfl

/-- Removing one occurrence from a duplicate-free list shortens it by
exactly one. -/
theorem length_filter_ne {α : Type} [DecidableEq α] {a : α} {l : List α}
    (hn : l.Nodup) (ha : a ∈ l) :
    (l.filter (fun m => m ≠ a)).length + 1 = l.length := by
  have h0 : (fun m : α => decide (m ≠ a)) = (fun x => x != a) := by
    funext x
    by_cases h : x = a <;> simp [h]
  have h1 : l.filter (fun m => m ≠ a) = l.erase a := by
    show l.filter (fun m => decide (m ≠ a)) = l.erase a
    rw [h0]
    exact (hn.erase_eq_filter a).symm
  rw [h1, List.length_erase_of_mem ha]
  have h2 : 1 ≤ l.length := List.length_pos.mpr (List.ne_nil_of_mem ha)
  omega

/-- After `join_room`, the joining connection is a member. -/
theorem join_room_self_mem (rooms : Rooms) (sid : SID) (room : String) :
    sid ∈ join_room rooms sid room room := by
  show sid ∈
    if room = room then
      if sid ∈ rooms room then rooms room else rooms room ++ [sid]
    else rooms room
  rw [if_pos rfl]
  by_cases h : sid ∈ rooms room
  · rw [if_pos h]; exact h
  · rw [if_neg h]; exact List.mem_append_right _ (by simp)

/-- `join_room` keeps a duplicate-free member list duplicate-free. -/
theorem join_room_nodup (rooms : Rooms) (sid : SID) (room : String)
    (hn : (rooms room).Nodup) : (join_room rooms sid room room).Nodup := by
  show List.Nodup
    (if room = room then
      if sid ∈ rooms room then rooms room else rooms room ++ [sid]
    else rooms room)
  rw [if_pos rfl]
  by_cases h : sid ∈ rooms room
  · rw [if_pos h]; exact hn
  · rw [if_neg h, List.nodup_append]
    exact ⟨hn, List.nodup_singleton _,
      fun a hal has => h ((List.mem_singleton.mp has) ▸ hal)⟩

/-- The delivery set of an `include_self=False` emit into a room: the other
members exactly, one fewer than the room size. -/
theorem emitTargets_spec (rooms : Rooms) (r : String) (sender : SID)
    (hn : (rooms r).Nodup) (hmem : sender ∈ rooms r) :
    sender ∉ emitTargets rooms (some r) sender false ∧
      (∀ m, m ∈ emitTargets rooms (some r) sender false ↔ m ∈ rooms r ∧ m ≠ sender) ∧
      (emitTargets rooms (some r) sender false).length + 1 = (rooms r).length := by
  refine ⟨?_, ?_, ?_⟩
  · simp [emitTargets, List.mem_filter]
  · intro m
    simp [emitTargets, List.mem_filter]
  · simp only [emitTargets, Bool.false_eq_true, if_false]
    exact length_filter_ne hn hmem

/-! ## Claim theorems -/

/-- Claim C4: for every relayed signaling event (Offer, Answer,
IceCandidate, and the user-joined notification on Join) sent into a room
with N members, the event is delivered to exactly the N-1 members other
than the originating connection, and never to the sender itself. -/
theorem relay_fanout_exclusion (rooms : Rooms) (sender : SID) (data : SigMap)
    (r : String) (hroom : data.lookup "room" = some r)
    (hnodup : (rooms r).Nodup) (hmem : sender ∈ rooms r) :
    (sender ∉ (on_offer rooms sender data).recipients ∧
      (∀ m, m ∈ (on_offer rooms sender data).recipients ↔ m ∈ rooms r ∧ m ≠ sender) ∧
      (on_offer rooms sender data).recipients.length + 1 = (rooms r).length) ∧
    (sender ∉ (on_answer rooms sender data).recipients ∧
      (∀ m, m ∈ (on_answer rooms sender data).recipients ↔ m ∈ rooms r ∧ m ≠ sender) ∧
      (on_answer rooms sender data).recipients.length + 1 = (rooms r).length) ∧
    (sender ∉ (on_ice_candidate rooms sender data).recipients ∧
      (∀ m, m ∈ (on_ice_candidate rooms sender data).recipients ↔ m ∈ rooms r ∧ m ≠ sender) ∧
      (on_ice_candidate rooms sender data).recipients.length + 1 = (rooms r).length) ∧
    (sender ∉ (on_join rooms sender data).2.recipients ∧
      (∀ m, m ∈ (on_join rooms sender data).2.recipients ↔
        m ∈ (on_join rooms sender data).1 r ∧ m ≠ sender) ∧
      (on_join rooms sender data).2.recipients.length + 1 =
        ((on_join rooms sender data).1 r).length) := by
  have hoff := emitTargets_spec rooms r sender hnodup hmem
  have hj_nodup := join_room_nodup rooms sender r hnodup
  have hj_mem := join_room_self_mem rooms sender r
  have hjoin := emitTargets_spec (join_room rooms sender r) r sender hj_nodup hj_mem
  refine ⟨?_, ?_, ?_, ?_⟩
  · simpa [on_offer, hroom] using hoff
  · simpa [on_answer, hroom] using hoff
  · simpa [on_ice_candidate, hroom] using hoff
  · simpa [on_join, hroom] using hjoin

/-- Witness for C4: room "lobby" = {1, 2, 3}, sender 1, so every relayed
event reaches exactly the two other members. -/
theorem relay_fanout_exclusion_witness :
    (1 ∉ (on_offer crooms 1 [("room", "lobby")]).recipients ∧
      (∀ m, m ∈ (on_offer crooms 1 [("room", "lobby")]).recipients ↔
        m ∈ crooms "lobby" ∧ m ≠ 1) ∧
      (on_offer crooms 1 [("room", "lobby")]).recipients.length + 1 =
        (crooms "lobby").length) ∧
    (1 ∉ (on_answer crooms 1 [("room", "lobby")]).recipients ∧
      (∀ m, m ∈ (on_answer crooms 1 [("room", "lobby")]).recipients ↔
        m ∈ crooms "lobby" ∧ m ≠ 1) ∧
      (on_answer crooms 1 [("room", "lobby")]).recipients.length + 1 =
        (crooms "lobby").length) ∧
    (1 ∉ (on_ice_candidate crooms 1 [("room", "lobby")]).recipients ∧
      (∀ m, m ∈ (on_ice_candidate crooms 1 [("room", "lobby")]).recipients ↔
        m ∈ crooms "lobby" ∧ m ≠ 1) ∧
      (on_ice_candidate crooms 1 [("room", "lobby")]).recipients.length + 1 =
        (crooms "lobby").length) ∧
    (1 ∉ (on_join crooms 1 [("room", "lobby")]).2.recipients ∧
      (∀ m, m ∈ (on_join crooms 1 [("room", "lobby")]).2.recipients ↔
        m ∈ (on_join crooms 1 [("room", "lobby")]).1 "lobby" ∧ m ≠ 1) ∧
      (on_join crooms 1 [("room", "lobby")]).2.recipients.length + 1 =
        ((on_join crooms 1 [("room", "lobby")]).1 "lobby").length) :=
  relay_fanout_exclusion crooms 1 [("room", "lobby")] "lobby" (by decide)
    (by decide) (by decide)

/-- Claim C6: for every Offer, Answer, or IceCandidate event, the relay
forwards the payload verbatim: the outbound event data equals the inbound
event data, for every possible payload. -/
theorem relay_payload_verbatim (rooms : Rooms) (sender : SID) (data : SigMap) :
    (on_offer rooms sender data).payload = data ∧
    (on_offer rooms sender data).event = "offer" ∧
    (on_answer rooms sender data).payload = data ∧
    (on_answer rooms sender data).event = "answer" ∧
    (on_ice_candidate rooms sender data).payload = data ∧
    (on_ice_candidate rooms sender data).event = "ice-candidate" :=
  ⟨rfl, rfl, rfl, rfl, rfl, rfl⟩

/-- Claim C7: a connection that disconnects abruptly, without an explicit
leave, is afterwards absent from the member set of every room it had
joined (modelled from the spec: Flask-SocketIO performs this cleanup, and
app.py registers no disconnect handler of its own). -/
theorem disconnect_cleanup_all_rooms (rooms : Rooms) (sid : SID) (room : String) :
    sid ∉ on_disconnect rooms sid room := by
  intro h
  simp only [on_disconnect, List.mem_filter, decide_eq_true_eq] at h
  exact h.2 rfl

/-- Claim C3: for every submitted image in which zero faces are detected,
the /login handler answers status "fail" and the whole state (faces
directory, known encodings and names, session) is returned exactly as it
was: no file is written and no reload occurs. -/
theorem login_no_face_detected {Img Enc FD : Type} (env : FaceEnv Img Enc FD)
    (ts : String) (writeOk : Bool) (d : String) (st : FaceState Enc FD)
    (hd : d ≠ "") (bs : List Nat) (frame : Img)
    (hb : env.b64decode (afterFirstComma d) = some bs)
    (hi : env.imdecode bs = some frame)
    (he : env.face_encodings frame = []) :
    login env ts writeOk (.pystr d) st = .ok (⟨"fail", none⟩, st) := by
  have hf : PyVal.falsy (.pystr d) = false := by
    simp [PyVal.falsy, hd]
  simp [login, hf, login_image, hb, hi, he]

/-- Witness for C3: the image "." decodes to a frame with zero detected
faces; /login answers "fail" and the store is untouched. -/
theorem login_no_face_detected_witness :
    login cenv "T" true (.pystr ".") (⟨[], [322], ["alice"], none⟩ : FaceState Int Int) =
      .ok (⟨"fail", none⟩, ⟨[], [322], ["alice"], none⟩) :=
  login_no_face_detected cenv "T" true "." ⟨[], [322], ["alice"], none⟩
    (by decide) [46] 46 (by decide) (by decide) (by decide)

/-- Claim C5: if the disk write persisting a newly enrolled face image
fails, /login reports status "fail" and the whole state — directory,
known faces, known names, session — is returned unchanged: no reload is
triggered for that call. -/
theorem login_disk_write_failure {Img Enc FD : Type} (env : FaceEnv Img Enc FD)
    (ts : String) (d : String) (st : FaceState Enc FD)
    (hd : d ≠ "") (bs : List Nat) (frame : Img) (unknown : Enc) (encRest : List Enc)
    (hb : env.b64decode (afterFirstComma d) = some bs)
    (hi : env.imdecode bs = some frame)
    (he : env.face_encodings frame = unknown :: encRest)
    (hnomatch : ∀ e ∈ st.known_faces, env.close e unknown = false) :
    login env ts false (.pystr d) st = .ok (⟨"fail", none⟩, st) := by
  have hf : PyVal.falsy (.pystr d) = false := by
    simp [PyVal.falsy, hd]
  have hmem : true ∉
      (if st.known_faces.isEmpty then []
       else compare_faces env.close st.known_faces unknown) := by
    split
    · simp
    · intro hmem
      rcases List.mem_map.mp hmem with ⟨e, he', hce⟩
      rw [hnomatch e he'] at hce
      cases hce
  simp [login, hf, login_image, hb, hi, he, hmem, enroll_new]

/-- Witness for C5: a frame matching no stored face, with the disk write
failing, yields "fail" and leaves the single-record store intact. -/
theorem login_disk_write_failure_witness :
    login cenv "T" false (.pystr "one")
        (⟨[("alice.jpg", 1000)], [1000], ["alice"], none⟩ : FaceState Int Int) =
      .ok (⟨"fail", none⟩, ⟨[("alice.jpg", 1000)], [1000], ["alice"], none⟩) :=
  login_disk_write_failure cenv "T" "one" ⟨[("alice.jpg", 1000)], [1000], ["alice"], none⟩
    (by decide) [111, 110, 101] 322 322 [] (by decide) (by decide) (by decide)
    (by decide)

/-- Claim C1: for every submitted image whose embedding is within the 0.5
tolerance of two or more stored records, /login answers "success" with the
identity of the record appearing earliest in Store iteration order — the
first within-tolerance record (everything before index k compares false),
not the globally nearest one. -/
theorem login_first_match_wins {Img Enc FD : Type} (env : FaceEnv Img Enc FD)
    (ts : String) (writeOk : Bool) (d : String) (st : FaceState Enc FD)
    (hd : d ≠ "") (hlen : st.known_names.length = st.known_faces.length)
    (bs : List Nat) (frame : Img) (unknown : Enc) (encRest : List Enc)
    (hb : env.b64decode (afterFirstComma d) = some bs)
    (hi : env.imdecode bs = some frame)
    (he : env.face_encodings frame = unknown :: encRest)
    (i j : Nat) (hij : i < j) (hj : j < st.known_faces.length)
    (hci : st.known_faces[i]?.map (fun e => env.close e unknown) = some true)
    (hcj : st.known_faces[j]?.map (fun e => env.close e unknown) = some true) :
    ∃ (k : Nat) (nm : String), k ≤ i ∧ k < st.known_faces.length ∧
      st.known_faces[k]?.map (fun e => env.close e unknown) = some true ∧
      (∀ m, m < k → st.known_faces[m]?.map (fun e => env.close e unknown) = some false) ∧
      st.known_names[k]? = some nm ∧
      login env ts writeOk (.pystr d) st =
        .ok (⟨"success", some nm⟩, { st with session_user := some nm }) := by
  have hf : PyVal.falsy (.pystr d) = false := by
    simp [PyVal.falsy, hd]
  have hfne : st.known_faces ≠ [] := by
    intro h0
    rw [h0] at hj
    simp at hj
  have hEmpty : st.known_faces.isEmpty = false := List.isEmpty_eq_false.mpr hfne
  have hms_len : (st.known_faces.map (fun e => env.close e unknown)).length =
      st.known_faces.length := List.length_map _ _
  have hmsj : (st.known_faces.map (fun e => env.close e unknown))[j]? = some true := by
    rw [List.getElem?_map]
    exact hcj
  have hmem : true ∈ st.known_faces.map (fun e => env.close e unknown) := by
    obtain ⟨hlt, heq⟩ := List.getElem?_eq_some.mp hmsj
    exact heq ▸ List.getElem_mem hlt
  obtain ⟨hk_lt, hk_get, hk_min⟩ :=
    indexOf_true_spec (st.known_faces.map (fun e => env.close e unknown)) hmem
  have hklt : (st.known_faces.map (fun e => env.close e unknown)).indexOf true <
      st.known_faces.length := hms_len ▸ hk_lt
  have hfk : st.known_faces[(st.known_faces.map
      (fun e => env.close e unknown)).indexOf true]?.map
      (fun e => env.close e unknown) = some true := by
    rw [← List.getElem?_map]
    exact hk_get
  have hfmin : ∀ m, m < (st.known_faces.map (fun e => env.close e unknown)).indexOf true →
      st.known_faces[m]?.map (fun e => env.close e unknown) = some false := by
    intro m hm
    rw [← List.getElem?_map]
    exact hk_min m hm
  have hki : (st.known_faces.map (fun e => env.close e unknown)).indexOf true ≤ i := by
    by_contra hik
    push_neg at hik
    have hfalse := hfmin i hik
    rw [hci] at hfalse
    cases hfalse
  have hknames : (st.known_faces.map (fun e => env.close e unknown)).indexOf true <
      st.known_names.length := by
    rw [hlen]
    exact hklt
  have hnm : st.known_names[(st.known_faces.map
      (fun e => env.close e unknown)).indexOf true]? =
      some st.known_names[(st.known_faces.map
        (fun e => env.close e unknown)).indexOf true] :=
    List.getElem?_eq_getElem hknames
  refine ⟨(st.known_faces.map (fun e => env.close e unknown)).indexOf true,
    st.known_names[(st.known_faces.map (fun e => env.close e unknown)).indexOf true],
    hki, hklt, hfk, hfmin, hnm, ?_⟩
  have hgetD : st.known_names.getD
      ((st.known_faces.map (fun e => env.close e unknown)).indexOf true) "" =
      st.known_names[(st.known_faces.map (fun e => env.close e unknown)).indexOf true] := by
    rw [List.getD_eq_getElem?_getD, hnm]
    rfl
  simp only [login, hf, Bool.false_eq_true, if_false, login_image, hb, hi, he,
    hEmpty, compare_faces, hmem, if_true, ite_true, ite_false, if_pos hmem]
  rw [List.getD_eq_getElem?_getD, hnm]
  rfl

/-- Witness for C1: store ["alice" at 322, "bob" at 330], both within
tolerance of the submitted embedding 322; the first record wins. -/
theorem login_first_match_wins_witness :
    ∃ (k : Nat) (nm : String), k ≤ 0 ∧
      k < (([322, 330] : List Int)).length ∧
      (([322, 330] : List Int))[k]?.map (fun e => cenv.close e 322) = some true ∧
      (∀ m, m < k → (([322, 330] : List Int))[m]?.map (fun e => cenv.close e 322) = some false) ∧
      (["alice", "bob"] : List String)[k]? = some nm ∧
      login cenv "T" true (.pystr "one")
          (⟨[], [322, 330], ["alice", "bob"], none⟩ : FaceState Int Int) =
        .ok (⟨"success", some nm⟩, ⟨[], [322, 330], ["alice", "bob"], some nm⟩) :=
  login_first_match_wins cenv "T" true "one" ⟨[], [322, 330], ["alice", "bob"], none⟩
    (by decide) (by decide) [111, 110, 101] 322 322 [] (by decide) (by decide)
    (by decide) 0 1 (by decide) (by decide) (by decide) (by decide)

/-- Counterexample to C8 as stated: identity "bob" is backed by the
present file "bob.png" (it is exactly what load derives "bob" from), yet
admin_delete "bob" deletes nothing — it only ever looks for "bob.jpg" —
and after the reload "bob" is still enrolled. -/
theorem admin_delete_png_not_deleted :
    admin_delete cenv "bob"
        (⟨[("bob.png", 5)], [5], ["bob"], some "admin"⟩ : FaceState Int Int) =
      some ⟨[("bob.png", 5)], [5], ["bob"], some "admin"⟩ ∧
    (load_faces cenv [("bob.png", 5)]).known_names = ["bob"] := by
  exact ⟨rfl, rfl⟩

/-- Claim C8 (amended): for every identity, remove deletes the identity's
".jpg" backing file when that file is present (backing files with other
extensions are left in place) and then triggers a full store reload;
removing an identity with no ".jpg" backing file deletes nothing and still
succeeds without error, the store being reloaded either way. -/
theorem admin_delete_spec {Img Enc FD : Type} (env : FaceEnv Img Enc FD)
    (username : String) (st : FaceState Enc FD)
    (hadmin : st.session_user = some "admin") :
    ∃ st', admin_delete env username st = some st' ∧
      (∀ f, f ∈ st'.fs ↔ f ∈ st.fs ∧ f.1 ≠ username ++ ".jpg") ∧
      st'.known_faces = (load_faces env st'.fs).known_faces ∧
      st'.known_names = (load_faces env st'.fs).known_names ∧
      st'.session_user = st.session_user := by
  by_cases hany : st.fs.any (fun f => f.1 = username ++ ".jpg") = true
  · refine ⟨{ st with
        fs := st.fs.filter (fun f => f.1 ≠ username ++ ".jpg"),
        known_faces :=
          (load_faces env (st.fs.filter (fun f => f.1 ≠ username ++ ".jpg"))).known_faces,
        known_names :=
          (load_faces env (st.fs.filter (fun f => f.1 ≠ username ++ ".jpg"))).known_names },
      ?_, ?_, rfl, rfl, rfl⟩
    · simp [admin_delete, hadmin, hany]
    · intro f
      simp [List.mem_filter]
  · have hall : ∀ f ∈ st.fs, f.1 ≠ username ++ ".jpg" := by
      rw [Bool.not_eq_true, List.any_eq_false] at hany
      intro f hf
      simpa using hany f hf
    have hany' : st.fs.any (fun f => f.1 = username ++ ".jpg") = false := by
      rwa [Bool.not_eq_true] at hany
    refine ⟨{ st with
        fs := st.fs,
        known_faces := (load_faces env st.fs).known_faces,
        known_names := (load_faces env st.fs).known_names },
      ?_, ?_, rfl, rfl, rfl⟩
    · simp [admin_delete, hadmin, hany']
    · intro f
      constructor
      · intro hf
        exact ⟨hf, hall f hf⟩
      · intro hf
        exact hf.1

/-- Witness for C8 (amended): removing "alice", backed by "alice.jpg",
deletes the file and reloads the now-empty store. -/
theorem admin_delete_spec_witness :
    ∃ st', admin_delete cenv "alice"
        (⟨[("alice.jpg", 7)], [7], ["alice"], some "admin"⟩ : FaceState Int Int) =
          some st' ∧
      (∀ f, f ∈ st'.fs ↔ f ∈ [("alice.jpg", (7 : Int))] ∧ f.1 ≠ "alice" ++ ".jpg") ∧
      st'.known_faces = (load_faces cenv st'.fs).known_faces ∧
      st'.known_names = (load_faces cenv st'.fs).known_names ∧
      st'.session_user = some "admin" :=
  admin_delete_spec cenv "alice" ⟨[("alice.jpg", 7)], [7], ["alice"], some "admin"⟩ rfl

/-- Counterexample to C9 as stated: "z.jpg" loads fine but yields zero
detected faces; load_faces skips it and the log stays empty — no warning
is logged for the zero-face case. -/
theorem load_faces_zero_face_silent :
    load_faces cenv [("z.jpg", 46)] = (⟨[], [], []⟩ : LoadResult Int) := by
  exact rfl

/-- Claim C9 (amended): during load, an unreadable or unparseable image
file is logged ("Failed to load face ...") and skipped, and a file
yielding zero detected faces is skipped silently (no warning is logged);
in both cases the load continues over the files before and after it and
never aborts as a whole. -/
theorem load_faces_skips_and_continues {Img Enc FD : Type} (env : FaceEnv Img Enc FD)
    (pre post : List (String × FD)) (f : String) (d : FD)
    (hext : lowerEndsWithExt f = true) :
    (env.load_image_file d = none →
      load_faces env (pre ++ (f, d) :: post) =
        ⟨(load_faces env pre).known_faces ++ (load_faces env post).known_faces,
         (load_faces env pre).known_names ++ (load_faces env post).known_names,
         (load_faces env pre).log ++
           ("Failed to load face faces/" ++ f) :: (load_faces env post).log⟩) ∧
    (∀ img, env.load_image_file d = some img → env.face_encodings img = [] →
      load_faces env (pre ++ (f, d) :: post) =
        ⟨(load_faces env pre).known_faces ++ (load_faces env post).known_faces,
         (load_faces env pre).known_names ++ (load_faces env post).known_names,
         (load_faces env pre).log ++ (load_faces env post).log⟩) := by
  constructor
  · intro hnone
    rw [load_faces_append]
    have h1 : load_faces env ((f, d) :: post) =
        ⟨(load_faces env post).known_faces, (load_faces env post).known_names,
         ("Failed to load face faces/" ++ f) :: (load_faces env post).log⟩ := by
      simp [load_faces, hext, hnone]
    rw [h1]
  · intro img hsome henc
    rw [load_faces_append]
    have h1 : load_faces env ((f, d) :: post) = load_faces env post := by
      simp [load_faces, hext, hsome, henc]
    rw [h1]

/-- Witness for C9 (amended): "bad.jpg" with unreadable contents between
two good files is logged and skipped, the neighbours both loading. -/
theorem load_faces_skips_and_continues_witness :
    ((cenv.load_image_file (-1) = none →
      load_faces cenv ([("p.jpg", 7)] ++ ("bad.jpg", -1) :: [("q.jpg", 8)]) =
        ⟨(load_faces cenv [("p.jpg", 7)]).known_faces ++
           (load_faces cenv [("q.jpg", 8)]).known_faces,
         (load_faces cenv [("p.jpg", 7)]).known_names ++
           (load_faces cenv [("q.jpg", 8)]).known_names,
         (load_faces cenv [("p.jpg", 7)]).log ++
           ("Failed to load face faces/" ++ "bad.jpg") ::
             (load_faces cenv [("q.jpg", 8)]).log⟩) ∧
    (∀ img, cenv.load_image_file (-1) = some img → cenv.face_encodings img = [] →
      load_faces cenv ([("p.jpg", 7)] ++ ("bad.jpg", -1) :: [("q.jpg", 8)]) =
        ⟨(load_faces cenv [("p.jpg", 7)]).known_faces ++
           (load_faces cenv [("q.jpg", 8)]).known_faces,
         (load_faces cenv [("p.jpg", 7)]).known_names ++
           (load_faces cenv [("q.jpg", 8)]).known_names,
         (load_faces cenv [("p.jpg", 7)]).log ++
           (load_faces cenv [("q.jpg", 8)]).log⟩)) :=
  load_faces_skips_and_continues cenv [("p.jpg", 7)] [("q.jpg", 8)] "bad.jpg" (-1)
    (by decide)

/-- Counterexample to C10 as stated: a request body whose image field is
the (truthy) number 5 makes the handler call .split on a non-string,
raising AttributeError — the handler is not total over every request body
and this body yields none of the three statuses. -/
theorem login_nonstring_image_raises :
    login cenv "T" true (.pynum 5) cst0 = .error "AttributeError" := rfl

/-- Claim C10 (amended): for every request body whose image field is
missing/null, falsy, or a string, /login is total and answers exactly one
of the statuses "fail", "success" and "new_face"; a missing or empty image
field, undecodable base64, and bytes that fail image decoding all yield
status "fail" with the state untouched; any status other than "success"
leaves the session user unchanged.  (A truthy non-string image value,
excluded here, instead raises AttributeError.) -/
theorem login_total_for_string_or_falsy {Img Enc FD : Type} (env : FaceEnv Img Enc FD)
    (ts : String) (writeOk : Bool) (data : PyVal) (st : FaceState Enc FD)
    (hdata : data = .pynone ∨ (∃ s, data = .pystr s) ∨ data.falsy = true) :
    (respStatus (login env ts writeOk data st) = some "fail" ∨
     respStatus (login env ts writeOk data st) = some "success" ∨
     respStatus (login env ts writeOk data st) = some "new_face") ∧
    (respStatus (login env ts writeOk data st) ≠ some "success" →
      (stateAfter st (login env ts writeOk data st)).session_user = st.session_user) ∧
    (data = .pynone → login env ts writeOk data st = .ok (⟨"fail", none⟩, st)) ∧
    (∀ s, data = .pystr s → s = "" →
      login env ts writeOk data st = .ok (⟨"fail", none⟩, st)) ∧
    (∀ s, data = .pystr s → env.b64decode (afterFirstComma s) = none →
      login env ts writeOk data st = .ok (⟨"fail", none⟩, st)) ∧
    (∀ s bs, data = .pystr s → env.b64decode (afterFirstComma s) = some bs →
      env.imdecode bs = none →
      login env ts writeOk data st = .ok (⟨"fail", none⟩, st)) := by
  rcases hdata with hnone | ⟨s, hs⟩ | hfalsy
  · subst hnone
    have hres : login env ts writeOk .pynone st = .ok (⟨"fail", none⟩, st) := rfl
    exact ⟨Or.inl (by rw [hres]; rfl), fun _ => by rw [hres]; rfl, fun _ => hres,
      fun s' _ _ => hres, fun s' _ _ => hres, fun s' bs' _ _ _ => hres⟩
  · subst hs
    by_cases hse : s = ""
    · subst hse
      have hres : login env ts writeOk (.pystr "") st = .ok (⟨"fail", none⟩, st) := rfl
      exact ⟨Or.inl (by rw [hres]; rfl), fun _ => by rw [hres]; rfl, fun _ => hres,
        fun s' _ _ => hres, fun s' _ _ => hres, fun s' bs' _ _ _ => hres⟩
    · have hf : PyVal.falsy (.pystr s) = false := by
        simp [PyVal.falsy, hse]
      have hlogin : login env ts writeOk (.pystr s) st = login_image env ts writeOk s st := by
        simp [login, hf]
      cases hb : env.b64decode (afterFirstComma s) with
      | none =>
        have hres : login env ts writeOk (.pystr s) st = .ok (⟨"fail", none⟩, st) := by
          rw [hlogin]
          simp [login_image, hb]
        exact ⟨Or.inl (by rw [hres]; rfl), fun _ => by rw [hres]; rfl, fun _ => hres,
          fun s' _ _ => hres, fun s' _ _ => hres, fun s' bs' _ _ _ => hres⟩
      | some bs =>
        cases him : env.imdecode bs with
        | none =>
          have hres : login env ts writeOk (.pystr s) st = .ok (⟨"fail", none⟩, st) := by
            rw [hlogin]
            simp [login_image, hb, him]
          exact ⟨Or.inl (by rw [hres]; rfl), fun _ => by rw [hres]; rfl, fun _ => hres,
            fun s' _ _ => hres, fun s' _ _ => hres, fun s' bs' _ _ _ => hres⟩
        | some frame =>
          cases henc : env.face_encodings frame with
          | nil =>
            have hres : login env ts writeOk (.pystr s) st = .ok (⟨"fail", none⟩, st) := by
              rw [hlogin]
              simp [login_image, hb, him, henc]
            exact ⟨Or.inl (by rw [hres]; rfl), fun _ => by rw [hres]; rfl, fun _ => hres,
              fun s' _ _ => hres, fun s' _ _ => hres, fun s' bs' _ _ _ => hres⟩
          | cons unknown encRest =>
            by_cases hm : true ∈ (if st.known_faces.isEmpty then ([] : List Bool)
              else compare_faces env.close st.known_faces unknown)
            · have hres : login env ts writeOk (.pystr s) st =
                  .ok (⟨"success", some (st.known_names.getD
                      ((if st.known_faces.isEmpty then ([] : List Bool)
                        else compare_faces env.close st.known_faces unknown).indexOf true) "")⟩,
                    { st with session_user := some (st.known_names.getD
                      ((if st.known_faces.isEmpty then ([] : List Bool)
                        else compare_faces env.close st.known_faces unknown).indexOf true) "") }) := by
                rw [hlogin]
                simp only [login_image, hb, him, henc]
                rw [if_pos hm]
              refine ⟨Or.inr (Or.inl (by rw [hres]; rfl)), ?_, ?_, ?_, ?_, ?_⟩
              · intro hne
                refine absurd ?_ hne
                rw [hres]
                rfl
              · intro h
                exact PyVal.noConfusion h
              · intro s' heq hse'
                injection heq with h'
                exact absurd (h'.trans hse') hse
              · intro s' heq hbn
                injection heq with h'
                subst h'
                rw [hb] at hbn
                exact Option.noConfusion hbn
              · intro s' bs' heq hbs hbn
                injection heq with h'
                subst h'
                rw [hb] at hbs
                injection hbs with h''
                subst h''
                rw [him] at hbn
                exact Option.noConfusion hbn
            · cases writeOk with
              | false =>
                have hres : login env ts false (.pystr s) st = .ok (⟨"fail", none⟩, st) := by
                  rw [hlogin]
                  simp only [login_image, hb, him, henc]
                  rw [if_neg hm]
                  simp [enroll_new]
                exact ⟨Or.inl (by rw [hres]; rfl), fun _ => by rw [hres]; rfl, fun _ => hres,
                  fun s' _ _ => hres, fun s' _ _ => hres, fun s' bs' _ _ _ => hres⟩
              | true =>
                have hres : login env ts true (.pystr s) st =
                    .ok (⟨"new_face", some ("user_" ++ ts ++ ".jpg")⟩,
                      { st with
                        fs := fsWrite st.fs ("user_" ++ ts ++ ".jpg") (env.imwrite_jpg frame),
                        known_faces := (load_faces env (fsWrite st.fs ("user_" ++ ts ++ ".jpg")
                          (env.imwrite_jpg frame))).known_faces,
                        known_names := (load_faces env (fsWrite st.fs ("user_" ++ ts ++ ".jpg")
                          (env.imwrite_jpg frame))).known_names }) := by
                  rw [hlogin]
                  simp only [login_image, hb, him, henc]
                  rw [if_neg hm]
                  simp [enroll_new]
                refine ⟨Or.inr (Or.inr (by rw [hres]; rfl)), ?_, ?_, ?_, ?_, ?_⟩
                · intro hne
                  rw [hres]
                  rfl
                · intro h
                  exact PyVal.noConfusion h
                · intro s' heq hse'
                  injection heq with h'
                  exact absurd (h'.trans hse') hse
                · intro s' heq hbn
                  injection heq with h'
                  subst h'
                  rw [hb] at hbn
                  exact Option.noConfusion hbn
                · intro s' bs' heq hbs hbn
                  injection heq with h'
                  subst h'
                  rw [hb] at hbs
                  injection hbs with h''
                  subst h''
                  rw [him] at hbn
                  exact Option.noConfusion hbn
  · have hres : login env ts writeOk data st = .ok (⟨"fail", none⟩, st) := by
      simp [login, hfalsy]
    exact ⟨Or.inl (by rw [hres]; rfl), fun _ => by rw [hres]; rfl, fun _ => hres,
      fun s' _ _ => hres, fun s' _ _ => hres, fun s' bs' _ _ _ => hres⟩

/-- Witness for C10 (amended): the string body "one" on the empty store is
handled totally (it enrolls, answering "new_face"). -/
theorem login_total_for_string_or_falsy_witness :
    (respStatus (login cenv "T" true (.pystr "one") cst0) = some "fail" ∨
     respStatus (login cenv "T" true (.pystr "one") cst0) = some "success" ∨
     respStatus (login cenv "T" true (.pystr "one") cst0) = some "new_face") ∧
    (respStatus (login cenv "T" true (.pystr "one") cst0) ≠ some "success" →
      (stateAfter cst0 (login cenv "T" true (.pystr "one") cst0)).session_user =
        cst0.session_user) ∧
    ((.pystr "one" : PyVal) = .pynone →
      login cenv "T" true (.pystr "one") cst0 = .ok (⟨"fail", none⟩, cst0)) ∧
    (∀ s, (.pystr "one" : PyVal) = .pystr s → s = "" →
      login cenv "T" true (.pystr "one") cst0 = .ok (⟨"fail", none⟩, cst0)) ∧
    (∀ s, (.pystr "one" : PyVal) = .pystr s → cenv.b64decode (afterFirstComma s) = none →
      login cenv "T" true (.pystr "one") cst0 = .ok (⟨"fail", none⟩, cst0)) ∧
    (∀ s bs, (.pystr "one" : PyVal) = .pystr s →
      cenv.b64decode (afterFirstComma s) = some bs → cenv.imdecode bs = none →
      login cenv "T" true (.pystr "one") cst0 = .ok (⟨"fail", none⟩, cst0)) :=
  login_total_for_string_or_falsy cenv "T" true (.pystr "one") cst0
    (Or.inr (Or.inl ⟨"one", rfl⟩))

/-- Counterexample to C2 as stated: enrollment reports the full filename
"user_A.jpg", but the subsequent within-tolerance authenticate answers
with the stored identity "user_A" (the filename minus its extension, as
load_faces strips it) — the two names differ. -/
theorem enroll_name_mismatch :
    respStatus (login cenv "A" true (.pystr "one") cst0) = some "new_face" ∧
    respName (login cenv "A" true (.pystr "one") cst0) = some "user_A.jpg" ∧
    respStatus (login cenv "B" true (.pystr "two")
      (stateAfter cst0 (login cenv "A" true (.pystr "one") cst0))) = some "success" ∧
    respName (login cenv "B" true (.pystr "two")
      (stateAfter cst0 (login cenv "A" true (.pystr "one") cst0))) = some "user_A" ∧
    (some "user_A" : Option String) ≠ some "user_A.jpg" := by
  refine ⟨rfl, rfl, rfl, rfl, ?_⟩
  decide

/-- Claim C2 (amended): for every image that yields a new_face outcome with
reported name "user_TS.jpg", a subsequent authenticate with a sufficiently
similar image — within tolerance of the re-loaded enrolled encoding and
matching none of the records loaded before it — returns Matched with the
extension-stripped identity splitextRoot "user_TS.jpg", i.e. the reported
enrollment name minus its ".jpg" suffix (not the enrollment name itself). -/
theorem enroll_then_match {Img Enc FD : Type} (env : FaceEnv Img Enc FD)
    (ts : String) (d₁ d₂ : String) (st : FaceState Enc FD)
    (hd₁ : d₁ ≠ "") (hd₂ : d₂ ≠ "")
    (bs₁ : List Nat) (frame₁ : Img) (unknown₁ : Enc) (encRest₁ : List Enc)
    (hb₁ : env.b64decode (afterFirstComma d₁) = some bs₁)
    (hi₁ : env.imdecode bs₁ = some frame₁)
    (he₁ : env.face_encodings frame₁ = unknown₁ :: encRest₁)
    (hnomatch₁ : ∀ e ∈ st.known_faces, env.close e unknown₁ = false)
    (hfresh : ∀ f ∈ st.fs, f.1 ≠ "user_" ++ ts ++ ".jpg")
    (hext : lowerEndsWithExt ("user_" ++ ts ++ ".jpg") = true)
    (img' : Img) (e' : Enc) (encRest' : List Enc)
    (hload : env.load_image_file (env.imwrite_jpg frame₁) = some img')
    (henc' : env.face_encodings img' = e' :: encRest')
    (bs₂ : List Nat) (frame₂ : Img) (unknown₂ : Enc) (encRest₂ : List Enc)
    (hb₂ : env.b64decode (afterFirstComma d₂) = some bs₂)
    (hi₂ : env.imdecode bs₂ = some frame₂)
    (he₂ : env.face_encodings frame₂ = unknown₂ :: encRest₂)
    (hnomatch₂ : ∀ e ∈ (load_faces env st.fs).known_faces, env.close e unknown₂ = false)
    (hmatch₂ : env.close e' unknown₂ = true) :
    ∃ st₁ : FaceState Enc FD,
      login env ts true (.pystr d₁) st =
        .ok (⟨"new_face", some ("user_" ++ ts ++ ".jpg")⟩, st₁) ∧
      ∀ ts₂ writeOk₂,
        (login env ts₂ writeOk₂ (.pystr d₂) st₁).map Prod.fst =
          .ok ⟨"success", some (splitextRoot ("user_" ++ ts ++ ".jpg"))⟩ := by
  have hf₁ : PyVal.falsy (.pystr d₁) = false := by
    simp [PyVal.falsy, hd₁]
  have hlogin₁ : login env ts true (.pystr d₁) st = login_image env ts true d₁ st := by
    simp [login, hf₁]
  have hm₁ : true ∉ (if st.known_faces.isEmpty then ([] : List Bool)
      else compare_faces env.close st.known_faces unknown₁) := by
    split
    · simp
    · intro hmem
      rcases List.mem_map.mp hmem with ⟨e, he', hce⟩
      rw [hnomatch₁ e he'] at hce
      cases hce
  have hres₁ : login env ts true (.pystr d₁) st =
      .ok (⟨"new_face", some ("user_" ++ ts ++ ".jpg")⟩,
        { st with
          fs := fsWrite st.fs ("user_" ++ ts ++ ".jpg") (env.imwrite_jpg frame₁),
          known_faces := (load_faces env (fsWrite st.fs ("user_" ++ ts ++ ".jpg")
            (env.imwrite_jpg frame₁))).known_faces,
          known_names := (load_faces env (fsWrite st.fs ("user_" ++ ts ++ ".jpg")
            (env.imwrite_jpg frame₁))).known_names }) := by
    rw [hlogin₁]
    simp only [login_image, hb₁, hi₁, he₁]
    rw [if_neg hm₁]
    simp [enroll_new]
  have hfs₁ : fsWrite st.fs ("user_" ++ ts ++ ".jpg") (env.imwrite_jpg frame₁) =
      st.fs ++ [("user_" ++ ts ++ ".jpg", env.imwrite_jpg frame₁)] :=
    fsWrite_of_fresh _ _ _ hfresh
  have hsingle : load_faces env [("user_" ++ ts ++ ".jpg", env.imwrite_jpg frame₁)] =
      ⟨[e'], [splitextRoot ("user_" ++ ts ++ ".jpg")], []⟩ := by
    simp [load_faces, hext, hload, henc']
  have hfaces₁ : (load_faces env (fsWrite st.fs ("user_" ++ ts ++ ".jpg")
      (env.imwrite_jpg frame₁))).known_faces =
      (load_faces env st.fs).known_faces ++ [e'] := by
    rw [hfs₁, load_faces_append, hsingle]
  have hnames₁ : (load_faces env (fsWrite st.fs ("user_" ++ ts ++ ".jpg")
      (env.imwrite_jpg frame₁))).known_names =
      (load_faces env st.fs).known_names ++ [splitextRoot ("user_" ++ ts ++ ".jpg")] := by
    rw [hfs₁, load_faces_append, hsingle]
  have hEmpty₁ : ((load_faces env st.fs).known_faces ++ [e']).isEmpty = false :=
    List.isEmpty_eq_false.mpr (by simp)
  have hcmp : compare_faces env.close ((load_faces env st.fs).known_faces ++ [e']) unknown₂ =
      ((load_faces env st.fs).known_faces.map (fun e => env.close e unknown₂)) ++ [true] := by
    rw [compare_faces, List.map_append]
    simp [hmatch₂]
  have hallfalse : ∀ b ∈ (load_faces env st.fs).known_faces.map
      (fun e => env.close e unknown₂), b = false := by
    intro b hbm
    rcases List.mem_map.mp hbm with ⟨e, he', rfl⟩
    exact hnomatch₂ e he'
  have hidx : (((load_faces env st.fs).known_faces.map
      (fun e => env.close e unknown₂)) ++ [true]).indexOf true =
      ((load_faces env st.fs).known_faces.map (fun e => env.close e unknown₂)).length :=
    indexOf_true_append _ [] hallfalse
  have hmem₂ : true ∈ (((load_faces env st.fs).known_faces.map
      (fun e => env.close e unknown₂)) ++ [true]) :=
    List.mem_append.mpr (Or.inr (by simp))
  have hlen₀ : (load_faces env st.fs).known_names.length =
      (load_faces env st.fs).known_faces.length := load_faces_length env st.fs
  have hgetD : ((load_faces env st.fs).known_names ++
      [splitextRoot ("user_" ++ ts ++ ".jpg")]).getD
      (((load_faces env st.fs).known_faces.map (fun e => env.close e unknown₂)).length) "" =
      splitextRoot ("user_" ++ ts ++ ".jpg") := by
    rw [List.length_map, ← hlen₀]
    exact getD_concat_length _ _ _
  refine ⟨_, hres₁, ?_⟩
  intro ts₂ writeOk₂
  have hf₂ : PyVal.falsy (.pystr d₂) = false := by
    simp [PyVal.falsy, hd₂]
  simp only [login, hf₂, Bool.false_eq_true, if_false, login_image, hb₂, hi₂, he₂,
    hfaces₁, hnames₁, hEmpty₁, hcmp]
  rw [if_pos hmem₂]
  rw [hidx, hgetD]
  rfl

/-- Witness for C2 (amended): enrolling "one" as "user_A.jpg" on the empty
store, then authenticating the similar image "two", yields Matched with
the extension-stripped identity. -/
theorem enroll_then_match_witness :
    ∃ st₁ : FaceState Int Int,
      login cenv "A" true (.pystr "one") cst0 =
        .ok (⟨"new_face", some ("user_" ++ "A" ++ ".jpg")⟩, st₁) ∧
      ∀ ts₂ writeOk₂,
        (login cenv ts₂ writeOk₂ (.pystr "two") st₁).map Prod.fst =
          .ok ⟨"success", some (splitextRoot ("user_" ++ "A" ++ ".jpg"))⟩ :=
  enroll_then_match cenv "A" "one" "two" cst0 (by decide) (by decide)
    [111, 110, 101] 322 322 [] (by decide) (by decide) (by decide) (by decide)
    (by decide) (by decide) 322 322 [] (by decide) (by decide)
    [116, 119, 111] 346 346 [] (by decide) (by decide) (by decide) (by decide)
    (by decide)

end VideoCall
